import Mathlib

/-!
Verification of the patient booking/cancellation core of `src/model/patient.py`.

The program stores all state in flat CSV files read through `csv.DictReader`,
so a file is modelled as a list of rows and a row as an ordered association
list of (column name, cell value) pairs, preserving column order.  Interactive
`input()` calls are modelled as explicit string parameters; the unbounded
re-prompt loop of `patient_select_slots` takes the list of successive input
attempts.  Python string primitives used by the code (`str.strip`,
`str.split(",")`, `str.isdigit`, `int`) are given structural definitions below
so that every theorem can be evaluated by the kernel on concrete inputs.
-/

set_option autoImplicit false

namespace Patient

/-- A CSV row as produced by `csv.DictReader`: an ordered association list of
(column name, cell value). -/
abbrev Row := List (String × String)

/-- Dictionary lookup `row[key]`.  Python raises `KeyError` on a missing key;
no claim exercises a missing key, and the model returns `""` there. -/
def getS : Row → String → String
  | [], _ => ""
  | (k', v) :: rest, k => if k' = k then v else getS rest k

/-- Dictionary assignment `row[key] = value`: replaces the value at an existing
key in place (Python dicts preserve insertion order), appends at the end when
the key is absent. -/
def setKey : Row → String → String → Row
  | [], k, v => [(k, v)]
  | (k', v') :: rest, k, v =>
    if k' = k then (k, v) :: rest else (k', v') :: setKey rest k v

/-- Python's whitespace test used by `str.strip`. -/
def pySpace (c : Char) : Bool := c = ' ' ∨ c = '\t' ∨ c = '\n' ∨ c = '\r'

/-- Python `str.strip()` on the underlying character list. -/
def pyStripChars (l : List Char) : List Char :=
  ((l.dropWhile pySpace).reverse.dropWhile pySpace).reverse

/-- Python `str.strip()`. -/
def pyStrip (s : String) : String := ⟨pyStripChars s.data⟩

/-- Python `str.split(",")` on the underlying character list: splits at every
comma and keeps empty pieces, so `""` yields `[""]`. -/
def pySplitCommaChars : List Char → List (List Char)
  | [] => [[]]
  | c :: rest =>
    if c = ',' then [] :: pySplitCommaChars rest
    else
      match pySplitCommaChars rest with
      | t :: ts => (c :: t) :: ts
      | [] => [[c]]

/-- Python `str.split(",")`. -/
def pySplitComma (s : String) : List String :=
  (pySplitCommaChars s.data).map fun l => ⟨l⟩

/-- Python `str.isdigit()` restricted to ASCII digits (the only characters the
claims exercise): true iff the string is nonempty and all digits. -/
def pyIsDigit (s : String) : Bool := s.data ≠ [] ∧ s.data.all Char.isDigit

/-- Python `int` on a digit string. -/
def pyToNat (s : String) : Nat :=
  s.data.foldl (fun n c => 10 * n + (c.toNat - 48)) 0

/-- Python `enumerate` starting at `n`. -/
def pyEnumFrom {α : Type} (n : Nat) : List α → List (Nat × α)
  | [] => []
  | a :: as => (n, a) :: pyEnumFrom (n + 1) as

/-- Python `enumerate`. -/
def pyEnumerate {α : Type} (l : List α) : List (Nat × α) := pyEnumFrom 0 l

/-- The OPEN occupancy marker of a schedule cell. -/
def openMarker : String := "⬜"

/-- The BOOKED occupancy marker of a schedule cell. -/
def bookedMarker : String := "⬛"

/-- Embedding of `extract_available_slots` (src/model/patient.py lines 50-74):
takes the schedule rows filtered to one date, reads the slot columns as the
keys of the first row from the fourth column onward
(`list(date_schedule[0].keys())[3:]`, per the code's own comment "keys
starting from the 3rd column onward"), and returns the `(index, slot_key)`
pairs of the columns whose stripped cell equals the OPEN marker, in column
order, the index being the position within the scanned slot columns. -/
def extract_available_slots (date_schedule : List Row) : List (Nat × String) :=
  match date_schedule with
  | [] => []
  | r0 :: _ =>
    let slot_columns := (r0.map Prod.fst).drop 3
    (pyEnumerate slot_columns).filter fun p => pyStrip (getS r0 p.2) = openMarker

/-- Modelled from the spec: the writer of the schedule file (the MHWP module)
is not under src.  Spec section 6 lists `mhwp_username` and `Date` before the
time-slot columns; the reader code additionally expects a `time_slot` column
in this file (`load_mhwp_schedule`, line 47), `extract_available_slots` treats
the first three columns as non-slot columns, and the spec's section 8 scenario
(indices 0 and 1 naming the first two slot columns) requires exactly three
leading non-slot columns.  Rows are therefore modelled as `mhwp_username`,
`Date`, `time_slot`, then one column per slot. -/
def mkScheduleRow (m d t : String) (slots : List (String × String)) : Row :=
  ("mhwp_username", m) :: ("Date", d) :: ("time_slot", t) :: slots

/-- The persistent state the booking/cancellation core touches: the schedule
file and the appointments file.  `none` models an absent file; the appointments
file is modelled as its list of data rows (its header is fixed by the writers
and never varies in the observed code paths). -/
structure FileState where
  schedule : Option (List Row)
  appointments : Option (List Row)
deriving DecidableEq

/-- Embedding of `get_assigned_mhwp` (lines 7-28): returns the
`mhwp_username` of the first assignments row whose `patient_username` matches,
`none` when no row matches or the assignments file is absent. -/
def get_assigned_mhwp (patient_username : String)
    (assignments : Option (List Row)) : Option String :=
  match assignments with
  | none => none
  | some rows =>
    match rows.find? (fun r => getS r "patient_username" == patient_username) with
    | some r => some (getS r "mhwp_username")
    | none => none

/-- Embedding of `load_mhwp_schedule` (lines 31-47): collects the
`(Date, time_slot)` pairs of the appointment rows whose `mhwp_username`
matches (a Python set; list membership is the same test), then keeps the
schedule rows whose own `(Date, time_slot)` pair is not among them.  An absent
schedule file yields `[]`; an absent appointments file yields an empty booked
set. -/
def load_mhwp_schedule (mhwp_username : String)
    (scheduleFile : Option (List Row)) (appointmentsFile : Option (List Row)) :
    List Row :=
  match scheduleFile with
  | none => []
  | some rows =>
    let booked : List (String × String) :=
      match appointmentsFile with
      | none => []
      | some appts =>
        ((appts.filter fun r => getS r "mhwp_username" == mhwp_username).map
          fun r => (getS r "Date", getS r "time_slot"))
    rows.filter fun r => !booked.contains (getS r "Date", getS r "time_slot")

/-- Parsing of one slot-selection input line (line 232 and 234):
`input.strip().split(",")`, then keep `int(t.strip())` for exactly the tokens
`t` with `t.strip().isdigit()`. -/
def parseIndices (s : String) : List Nat :=
  ((pySplitComma (pyStrip s)).map pyStrip).filterMap fun t =>
    if pyIsDigit t then some (pyToNat t) else none

/-- The validation test of the selection loop (line 235): every parsed index
occurs among the first components of `available_slots` and at most two indices
were parsed. -/
def validSelection (available : List (Nat × String)) (sel : List Nat) : Prop :=
  (∀ i ∈ sel, i ∈ available.map Prod.fst) ∧ sel.length ≤ 2

instance (available : List (Nat × String)) (sel : List Nat) :
    Decidable (validSelection available sel) := by
  unfold validSelection; infer_instance

/-- The unbounded re-prompt loop (lines 231-240) over the successive input
lines: returns the parse of the first line passing validation, `none` when
the supplied lines run out without one (the Python loop would still be
prompting). -/
def selectLoop (available : List (Nat × String)) : List String → Option (List Nat)
  | [] => none
  | s :: rest =>
    let sel := parseIndices s
    if validSelection available sel then some sel else selectLoop available rest

/-- The appointment row appended per chosen slot (lines 256-264): fieldnames
`patient_username, mhwp_username, Date, Slot`. -/
def mkAppointment (patient mhwp date slot : String) : Row :=
  [("patient_username", patient), ("mhwp_username", mhwp),
   ("Date", date), ("Slot", slot)]

/-- In-place mutation of the first row satisfying `p` (the object aliased as
`date_schedule[0]` is the first matching element of `all_schedules`). -/
def replaceFirst (l : List Row) (p : Row → Bool) (new : Row) : List Row :=
  match l with
  | [] => []
  | r :: rest => if p r then new :: rest else r :: replaceFirst rest p new

/-- Outcome of one run of `patient_select_slots`. -/
inductive SelectOutcome where
  /-- Schedule file absent (line 189). -/
  | fileNotFound : SelectOutcome
  /-- No schedule rows for the MHWP (line 199). -/
  | noSchedule : SelectOutcome
  /-- No row for the entered date (line 211). -/
  | noDateSchedule : SelectOutcome
  /-- No open slot on the entered date (line 222). -/
  | noOpenSlots : SelectOutcome
  /-- The supplied input lines ran out inside the re-prompt loop. -/
  | inputExhausted : SelectOutcome
  /-- An exception during the update loop (`available_slots[idx]` out of
  range, line 244), caught at line 268: no file was written. -/
  | error : SelectOutcome
  /-- "Appointment(s) booked successfully." with the accepted indices. -/
  | booked : List Nat → SelectOutcome
deriving DecidableEq

/-- Embedding of the operative `patient_select_slots` (lines 185-269), the
later of the two identical definitions, which overrides the earlier one.
`selected_date` models the date `input()`, `attempts` the successive
slot-index input lines.  On a validated selection the code positionally
indexes `available_slots[idx]` for each chosen `idx` (line 244): when some
`idx` is out of range the raised `IndexError` is caught before any file write;
otherwise the first row of the chosen date (aliased inside `all_schedules`)
has each `available_slots[idx]` slot column set to BOOKED, the schedule file
is rewritten with exactly the rows of this MHWP (`writer.writerows(all_schedules)`,
line 252), and one appointment row per chosen index is appended to the
appointments file (opened in append mode, created bare if absent). -/
def patient_select_slots (patient_username mhwp_username : String)
    (st : FileState) (selected_date : String) (attempts : List String) :
    SelectOutcome × FileState :=
  match st.schedule with
  | none => (.fileNotFound, st)
  | some rows =>
    let all_schedules := rows.filter fun r => getS r "mhwp_username" == mhwp_username
    if all_schedules.isEmpty then (.noSchedule, st) else
    match all_schedules.filter fun r => getS r "Date" == selected_date with
    | [] => (.noDateSchedule, st)
    | r0 :: rest =>
      let available := extract_available_slots (r0 :: rest)
      if available.isEmpty then (.noOpenSlots, st) else
      match selectLoop available attempts with
      | none => (.inputExhausted, st)
      | some sel =>
        if ∀ i ∈ sel, i < available.length then
          let newR0 := sel.foldl
            (fun r idx => setKey r (available.getD idx (0, "")).2 bookedMarker) r0
          let newAll := replaceFirst all_schedules
            (fun r => getS r "Date" == selected_date) newR0
          let records := sel.map fun idx =>
            mkAppointment patient_username mhwp_username selected_date
              (available.getD idx (0, "")).2
          (.booked sel,
            { schedule := some newAll,
              appointments := some ((st.appointments.getD []) ++ records) })
        else (.error, st)

/-- Embedding of the earlier, overridden `patient_select_slots` definition
(lines 78-162); its source text is identical to the later definition's
(lines 185-269), so the embedding repeats the same steps. -/
def patient_select_slots_first (patient_username mhwp_username : String)
    (st : FileState) (selected_date : String) (attempts : List String) :
    SelectOutcome × FileState :=
  match st.schedule with
  | none => (.fileNotFound, st)
  | some rows =>
    let all_schedules := rows.filter fun r => getS r "mhwp_username" == mhwp_username
    if all_schedules.isEmpty then (.noSchedule, st) else
    match all_schedules.filter fun r => getS r "Date" == selected_date with
    | [] => (.noDateSchedule, st)
    | r0 :: rest =>
      let available := extract_available_slots (r0 :: rest)
      if available.isEmpty then (.noOpenSlots, st) else
      match selectLoop available attempts with
      | none => (.inputExhausted, st)
      | some sel =>
        if ∀ i ∈ sel, i < available.length then
          let newR0 := sel.foldl
            (fun r idx => setKey r (available.getD idx (0, "")).2 bookedMarker) r0
          let newAll := replaceFirst all_schedules
            (fun r => getS r "Date" == selected_date) newR0
          let records := sel.map fun idx =>
            mkAppointment patient_username mhwp_username selected_date
              (available.getD idx (0, "")).2
          (.booked sel,
            { schedule := some newAll,
              appointments := some ((st.appointments.getD []) ++ records) })
        else (.error, st)

/-- The cancellation predicate of the ledger filter (line 338): the row
matches the cancelling patient, date and time slot. -/
def apptMatches (username date time_slot : String) (r : Row) : Bool :=
  getS r "patient_username" == username ∧ getS r "Date" == date ∧
    getS r "time_slot" == time_slot

/-- Embedding of the cancellation branch of `handle_patient_menu`
(lines 327-350): with an absent appointments file, report failure and touch
nothing; otherwise drop every matching row, and only when that removed at
least one row rewrite the appointments file with the remaining rows and
report success.  The schedule file is never opened. -/
def cancel_appointment (username date time_slot : String) (st : FileState) :
    Bool × FileState :=
  match st.appointments with
  | none => (false, st)
  | some appointments =>
    let updated := appointments.filter fun r => !apptMatches username date time_slot r
    if updated.length < appointments.length then
      (true, { st with appointments := some updated })
    else
      (false, st)

/-- An appointments-file row in the schema its readers expect
(`patient_username, mhwp_username, Date, time_slot`, the header written by
`save_appointments` and assumed by `load_mhwp_schedule` and the cancellation
branch). -/
def apptRow (p m d s : String) : Row :=
  [("patient_username", p), ("mhwp_username", m), ("Date", d), ("time_slot", s)]

/-- C9: the two source definitions of `patient_select_slots` (lines 78-162 and
lines 185-269, the later overriding the earlier) are byte-identical, so their
embeddings agree on every input state, date and input sequence: same outcome
and same file contents. -/
theorem patient_select_slots_duplicate_defs_equal :
    ∀ (p m : String) (st : FileState) (d : String) (a : List String),
      patient_select_slots_first p m st d a = patient_select_slots p m st d a :=
  fun _ _ _ _ _ => rfl

/-- C6: the cancellation branch mutates only the appointments ledger; the
schedule file component of the state is returned unchanged for every input,
hence every schedule cell — including the BOOKED cell of the cancelled
`(date, slot)` — is exactly as it was before the cancellation. -/
theorem cancel_preserves_schedule :
    ∀ (u d s : String) (st : FileState),
      ((cancel_appointment u d s st).2).schedule = st.schedule := by
  intro u d s st
  obtain ⟨sched, appts⟩ := st
  cases appts with
  | none => rfl
  | some rows =>
    unfold cancel_appointment
    dsimp only
    split <;> rfl

/-- C7: the section-8 scenario.  MHWP `drsmith` has a schedule row for
`2024/03/01` with slot columns `09:00 = OPEN`, `10:00 = OPEN`,
`11:00 = BOOKED`; patient `alice` enters indices `0,1`: both slots become
BOOKED in the persisted schedule, two appointment records with
`Date = 2024/03/01` (for slots `09:00` and `10:00`) are appended, and
`extract_available_slots` on the updated row returns the empty sequence. -/
theorem booking_scenario_drsmith :
    patient_select_slots "alice" "drsmith"
        ⟨some [mkScheduleRow "drsmith" "2024/03/01" "-"
          [("09:00", "⬜"), ("10:00", "⬜"), ("11:00", "⬛")]], some []⟩
        "2024/03/01" ["0,1"]
      = (.booked [0, 1],
         ⟨some [mkScheduleRow "drsmith" "2024/03/01" "-"
           [("09:00", "⬛"), ("10:00", "⬛"), ("11:00", "⬛")]],
          some [mkAppointment "alice" "drsmith" "2024/03/01" "09:00",
                mkAppointment "alice" "drsmith" "2024/03/01" "10:00"]⟩)
    ∧ extract_available_slots
        [mkScheduleRow "drsmith" "2024/03/01" "-"
          [("09:00", "⬛"), ("10:00", "⬛"), ("11:00", "⬛")]] = [] := by
  decide

/-- C1 failing input: slot columns `09:00 = BOOKED`, `10:00 = OPEN`,
`11:00 = OPEN`, so the open indices are `[1, 2]`; `alice` selects the open
index `1` (the `10:00` slot).  The selection is accepted and reported booked,
but line 244 reads `available_slots[1]` positionally, which is `(2, "11:00")`:
the persisted schedule still has `10:00 = OPEN`, `11:00` was booked instead,
and the single appended appointment record names slot `11:00` — so the chosen
slot is neither BOOKED nor matched by an appended record, contradicting the
claim. -/
theorem patient_select_books_unchosen_slot :
    extract_available_slots
        [mkScheduleRow "m" "d" "-"
          [("09:00", "⬛"), ("10:00", "⬜"), ("11:00", "⬜")]]
      = [(1, "10:00"), (2, "11:00")]
    ∧ patient_select_slots "alice" "m"
        ⟨some [mkScheduleRow "m" "d" "-"
          [("09:00", "⬛"), ("10:00", "⬜"), ("11:00", "⬜")]], some []⟩
        "d" ["1"]
      = (.booked [1],
         ⟨some [mkScheduleRow "m" "d" "-"
           [("09:00", "⬛"), ("10:00", "⬜"), ("11:00", "⬛")]],
          some [mkAppointment "alice" "m" "d" "11:00"]⟩) := by
  decide

/-- C3 failing input: slot columns `09:00 = BOOKED`, `10:00 = OPEN`, so the
single open index is `1`.  Entering `1` — one currently-open index, a
selection the claim says succeeds — passes the loop's validation, but the
update loop then evaluates `available_slots[1]` on the one-element list of
open slots: the `IndexError` is caught by the surrounding handler and the
operation aborts with neither file written. -/
theorem patient_select_valid_index_aborts :
    validSelection
        (extract_available_slots
          [mkScheduleRow "m" "d" "-" [("09:00", "⬛"), ("10:00", "⬜")]])
        (parseIndices "1")
    ∧ patient_select_slots "alice" "m"
        ⟨some [mkScheduleRow "m" "d" "-" [("09:00", "⬛"), ("10:00", "⬜")]],
         some []⟩
        "d" ["1"]
      = (.error,
         ⟨some [mkScheduleRow "m" "d" "-" [("09:00", "⬛"), ("10:00", "⬜")]],
          some []⟩) := by
  decide

/-- C5 counterexample: the ledger holds two identical records for
`(alice, 2024/03/01, 09:00)`.  Cancelling that triple reports success but the
rewrite drops every matching row: two records are removed, not exactly one as
the claim states. -/
theorem cancel_removes_two_records :
    (cancel_appointment "alice" "2024/03/01" "09:00"
        ⟨some [], some [apptRow "alice" "m" "2024/03/01" "09:00",
                        apptRow "alice" "m" "2024/03/01" "09:00"]⟩).1 = true
    ∧ (cancel_appointment "alice" "2024/03/01" "09:00"
        ⟨some [], some [apptRow "alice" "m" "2024/03/01" "09:00",
                        apptRow "alice" "m" "2024/03/01" "09:00"]⟩).2.appointments
      = some []
    ∧ ¬ ([apptRow "alice" "m" "2024/03/01" "09:00",
          apptRow "alice" "m" "2024/03/01" "09:00"].length
          - ((cancel_appointment "alice" "2024/03/01" "09:00"
              ⟨some [], some [apptRow "alice" "m" "2024/03/01" "09:00",
                              apptRow "alice" "m" "2024/03/01" "09:00"]⟩).2.appointments.getD []).length
         = 1) := by
  decide

/-- C10 counterexample: the schedule file holds a row for the assigned MHWP
`m1` and a row for another MHWP `m2`.  `alice` enters `abc,xy` — no
digit-only token — and the attempt is accepted as a selection of zero slots
and reported booked, but the rewritten schedule file is not unchanged: the
`m2` row has been dropped, because line 252 writes back only the rows
filtered to the selected MHWP. -/
theorem empty_selection_rewrite_drops_rows :
    patient_select_slots "alice" "m1"
        ⟨some [mkScheduleRow "m1" "d" "-" [("09:00", "⬜")],
               mkScheduleRow "m2" "d" "-" [("09:00", "⬜")]], some []⟩
        "d" ["abc,xy"]
      = (.booked [],
         ⟨some [mkScheduleRow "m1" "d" "-" [("09:00", "⬜")]], some []⟩)
    ∧ some [mkScheduleRow "m1" "d" "-" [("09:00", "⬜")]]
      ≠ some [mkScheduleRow "m1" "d" "-" [("09:00", "⬜")],
              mkScheduleRow "m2" "d" "-" [("09:00", "⬜")]] := by
  decide

/-- C8: `get_assigned_mhwp` is a pure lookup: it returns `none` on an absent
assignments file, `none` when no row's `patient_username` matches, and the
`mhwp_username` of the first matching row in file order otherwise (no
uniqueness is enforced; rows after the first match are ignored). -/
theorem get_assigned_mhwp_spec :
    ∀ (p : String),
      get_assigned_mhwp p none = none
      ∧ (∀ rows : List Row, (∀ r ∈ rows, getS r "patient_username" ≠ p) →
          get_assigned_mhwp p (some rows) = none)
      ∧ (∀ (pre : List Row) (r : Row) (post : List Row),
          (∀ r' ∈ pre, getS r' "patient_username" ≠ p) →
          getS r "patient_username" = p →
          get_assigned_mhwp p (some (pre ++ r :: post))
            = some (getS r "mhwp_username")) := by
  intro p
  refine ⟨rfl, ?_, ?_⟩
  · intro rows h
    unfold get_assigned_mhwp
    dsimp only
    have hf : rows.find? (fun r => getS r "patient_username" == p) = none := by
      rw [List.find?_eq_none]
      intro r hr
      simpa using h r hr
    rw [hf]
  · intro pre r post hpre hr
    unfold get_assigned_mhwp
    dsimp only
    have h1 : pre.find? (fun r => getS r "patient_username" == p) = none := by
      rw [List.find?_eq_none]
      intro x hx
      simpa using hpre x hx
    rw [List.find?_append, h1]
    simp [List.find?_cons, hr]

/-- Witness for C8: with rows `bob ↦ m0`, `alice ↦ m1`, `alice ↦ m2`, the
lookup for `alice` returns `m1`, the first matching row. -/
theorem get_assigned_mhwp_spec_witness :
    get_assigned_mhwp "alice"
        (some [[("patient_username", "bob"), ("mhwp_username", "m0")],
               [("patient_username", "alice"), ("mhwp_username", "m1")],
               [("patient_username", "alice"), ("mhwp_username", "m2")]])
      = some "m1" :=
  (get_assigned_mhwp_spec "alice").2.2
    [[("patient_username", "bob"), ("mhwp_username", "m0")]]
    [("patient_username", "alice"), ("mhwp_username", "m1")]
    [[("patient_username", "alice"), ("mhwp_username", "m2")]]
    (by decide) (by decide)

/-- C4: no row returned by `load_mhwp_schedule` for a MHWP carries a
`(Date, time_slot)` pair that occurs in an appointment record of that MHWP:
the filter at line 47 removes exactly the rows whose pair is in the booked
set collected from the appointments file. -/
theorem load_mhwp_schedule_excludes_booked :
    ∀ (m : String) (scheduleRows appts : List Row) (r a : Row),
      r ∈ load_mhwp_schedule m (some scheduleRows) (some appts) →
      a ∈ appts → getS a "mhwp_username" = m →
      ¬(getS r "Date" = getS a "Date"
        ∧ getS r "time_slot" = getS a "time_slot") := by
  intro m rows appts r a hr ha hm hc
  obtain ⟨hd, hs⟩ := hc
  unfold load_mhwp_schedule at hr
  dsimp only at hr
  rw [List.mem_filter] at hr
  obtain ⟨-, hcond⟩ := hr
  rw [Bool.not_eq_true'] at hcond
  have hmem : ((getS r "Date", getS r "time_slot") :
      String × String) ∈ ((appts.filter fun x => getS x "mhwp_username" == m).map
        fun x => (getS x "Date", getS x "time_slot")) := by
    rw [List.mem_map]
    refine ⟨a, ?_, by rw [hd, hs]⟩
    rw [List.mem_filter]
    exact ⟨ha, by simp [hm]⟩
  rw [← List.elem_iff] at hmem
  simp only [List.contains] at hcond
  rw [hmem] at hcond
  cases hcond

/-- Witness for C4: with an appointment `(d1, s1)` for MHWP `m`, the schedule
row for `(d1, s1)` is filtered out and the surviving row's pair `(d2, s2)`
differs from the booked pair. -/
theorem load_mhwp_schedule_excludes_booked_witness :
    ¬(getS (mkScheduleRow "m" "d2" "s2" []) "Date"
        = getS (apptRow "p" "m" "d1" "s1") "Date"
      ∧ getS (mkScheduleRow "m" "d2" "s2" []) "time_slot"
        = getS (apptRow "p" "m" "d1" "s1") "time_slot") :=
  load_mhwp_schedule_excludes_booked "m"
    [mkScheduleRow "m" "d1" "s1" [], mkScheduleRow "m" "d2" "s2" []]
    [apptRow "p" "m" "d1" "s1"]
    (mkScheduleRow "m" "d2" "s2" []) (apptRow "p" "m" "d1" "s1")
    (by decide) (by decide) (by decide)

/-- C5 as amended: cancelling a `(patient, date, slot)` with at least one
matching ledger record removes every matching record (hence exactly one when
the match is unique) and reports success; cancelling with no matching record
reports failure and leaves the ledger contents unchanged, as does an absent
appointments file. -/
theorem cancel_spec :
    ∀ (u d s : String) (sched : Option (List Row)) (rows : List Row),
      ((∃ r ∈ rows, apptMatches u d s r = true) →
        cancel_appointment u d s ⟨sched, some rows⟩
          = (true, ⟨sched, some (rows.filter fun r => !apptMatches u d s r)⟩))
      ∧ ((∀ r ∈ rows, apptMatches u d s r = false) →
        cancel_appointment u d s ⟨sched, some rows⟩ = (false, ⟨sched, some rows⟩))
      ∧ cancel_appointment u d s ⟨sched, none⟩ = (false, ⟨sched, none⟩) := by
  intro u d s sched rows
  refine ⟨?_, ?_, rfl⟩
  · rintro ⟨r, hr, hmatch⟩
    unfold cancel_appointment
    dsimp only
    rw [if_pos]
    rw [List.length_filter_lt_length_iff_exists]
    exact ⟨r, hr, by simp [hmatch]⟩
  · intro h
    unfold cancel_appointment
    dsimp only
    rw [if_neg]
    rw [List.length_filter_lt_length_iff_exists]
    rintro ⟨x, hx, hnx⟩
    exact hnx (by simp [h x hx])

/-- Witness for C5: a ledger holding a matching record for `alice` and an
unrelated record for `bob`; the cancellation succeeds and rewrites the ledger
with exactly the non-matching rows. -/
theorem cancel_spec_witness :
    cancel_appointment "alice" "2024/03/01" "09:00"
        ⟨some [], some [apptRow "alice" "m" "2024/03/01" "09:00",
                        apptRow "bob" "m" "2024/03/01" "09:00"]⟩
      = (true, ⟨some [],
          some ([apptRow "alice" "m" "2024/03/01" "09:00",
                 apptRow "bob" "m" "2024/03/01" "09:00"].filter
            fun r => !apptMatches "alice" "2024/03/01" "09:00" r)⟩) :=
  (cancel_spec "alice" "2024/03/01" "09:00" (some [])
      [apptRow "alice" "m" "2024/03/01" "09:00",
       apptRow "bob" "m" "2024/03/01" "09:00"]).1
    ⟨apptRow "alice" "m" "2024/03/01" "09:00", by decide, by decide⟩

/-- The OPEN marker survives `str.strip`. -/
theorem pyStrip_openMarker : pyStrip openMarker = openMarker := by decide

/-- The BOOKED marker survives `str.strip`. -/
theorem pyStrip_bookedMarker : pyStrip bookedMarker = bookedMarker := by decide

/-- Association lookup over pairwise-distinct keys returns the stored value. -/
theorem getS_of_nodup :
    ∀ (l : List (String × String)) (kv : String × String),
      (l.map Prod.fst).Nodup → kv ∈ l → getS l kv.1 = kv.2 := by
  intro l
  induction l with
  | nil => intro kv _ h; cases h
  | cons hd tl ih =>
    intro kv hnd hmem
    rw [List.map_cons, List.nodup_cons] at hnd
    obtain ⟨hhd, htl⟩ := hnd
    obtain ⟨k0, v0⟩ := hd
    cases hmem with
    | head => simp [getS]
    | tail _ hkv =>
      have hne : k0 ≠ kv.1 := by
        intro he
        have hk : kv.1 ∈ tl.map Prod.fst := List.mem_map_of_mem Prod.fst hkv
        exact hhd (he.symm ▸ hk)
      rw [getS, if_neg hne]
      exact ih kv htl hkv

/-- Looking up a slot column of a schedule row returns its cell when the slot
names are distinct and none collides with the three leading columns. -/
theorem getS_mkScheduleRow :
    ∀ (m d t : String) (slots : List (String × String)) (kv : String × String),
      (slots.map Prod.fst).Nodup →
      (∀ kv' ∈ slots,
        kv'.1 ≠ "mhwp_username" ∧ kv'.1 ≠ "Date" ∧ kv'.1 ≠ "time_slot") →
      kv ∈ slots → getS (mkScheduleRow m d t slots) kv.1 = kv.2 := by
  intro m d t slots kv hnd hdisj hmem
  obtain ⟨h1, h2, h3⟩ := hdisj kv hmem
  unfold mkScheduleRow
  rw [getS, if_neg (fun he => h1 he.symm)]
  rw [getS, if_neg (fun he => h2 he.symm)]
  rw [getS, if_neg (fun he => h3 he.symm)]
  exact getS_of_nodup slots kv hnd hmem

/-- The enumerate-and-filter of the slot-column names agrees with filtering
the slots themselves, at every starting offset, when every lookup returns the
stored cell and every cell is one of the two markers. -/
theorem extract_enum_aux :
    ∀ (r0 : Row) (slots : List (String × String)) (n : Nat),
      (∀ kv ∈ slots, getS r0 kv.1 = kv.2) →
      (∀ kv ∈ slots, kv.2 = openMarker ∨ kv.2 = bookedMarker) →
      (pyEnumFrom n (slots.map Prod.fst)).filter
          (fun p => pyStrip (getS r0 p.2) = openMarker)
        = (pyEnumFrom n slots).filterMap
            (fun p => if p.2.2 = openMarker then some (p.1, p.2.1) else none) := by
  intro r0 slots
  induction slots with
  | nil => intro n _ _; rfl
  | cons kv rest ih =>
    intro n hval hmarker
    obtain ⟨k, v⟩ := kv
    have hg : getS r0 k = v := hval (k, v) (List.mem_cons_self _ _)
    have hrec := ih (n + 1) (fun x hx => hval x (List.mem_cons_of_mem _ hx))
      (fun x hx => hmarker x (List.mem_cons_of_mem _ hx))
    simp only [List.map_cons, pyEnumFrom, List.filter_cons, List.filterMap_cons]
    rcases hmarker (k, v) (List.mem_cons_self _ _) with hv | hv
    · replace hv : v = openMarker := hv
      subst hv
      simp [hg, pyStrip_openMarker, hrec]
    · replace hv : v = bookedMarker := hv
      subst hv
      simp [hg, pyStrip_openMarker, pyStrip_bookedMarker,
            show ¬ (bookedMarker = openMarker) from (by decide), hrec]

/-- C2: on a schedule row whose slot names are distinct, do not collide with
the three leading columns, and whose cells are occupancy markers,
`extract_available_slots` returns exactly the `(index, slot_name)` pairs of
the slot columns whose cell equals the OPEN marker, scanned left-to-right,
with the index equal to the slot column's position; no OPEN slot column is
omitted and no non-OPEN cell is included. -/
theorem extract_available_slots_exact :
    ∀ (m d t : String) (slots : List (String × String)) (rest : List Row),
      (slots.map Prod.fst).Nodup →
      (∀ kv ∈ slots,
        kv.1 ≠ "mhwp_username" ∧ kv.1 ≠ "Date" ∧ kv.1 ≠ "time_slot") →
      (∀ kv ∈ slots, kv.2 = openMarker ∨ kv.2 = bookedMarker) →
      extract_available_slots (mkScheduleRow m d t slots :: rest)
        = (pyEnumerate slots).filterMap
            (fun p => if p.2.2 = openMarker then some (p.1, p.2.1) else none) := by
  intro m d t slots rest hnd hdisj hmk
  unfold extract_available_slots
  dsimp only
  have hkeys : (((mkScheduleRow m d t slots).map Prod.fst).drop 3)
      = slots.map Prod.fst := by
    simp [mkScheduleRow]
  rw [hkeys]
  unfold pyEnumerate
  exact extract_enum_aux _ slots 0
    (fun kv hkv => getS_mkScheduleRow m d t slots kv hnd hdisj hkv) hmk

/-- Witness for C2: slots `09:00 = OPEN`, `10:00 = BOOKED`, `11:00 = OPEN`
give exactly `[(0, 09:00), (2, 11:00)]`. -/
theorem extract_available_slots_exact_witness :
    extract_available_slots
        [mkScheduleRow "m" "d" "-"
          [("09:00", "⬜"), ("10:00", "⬛"), ("11:00", "⬜")]]
      = [(0, "09:00"), (2, "11:00")] :=
  extract_available_slots_exact "m" "d" "-"
    [("09:00", "⬜"), ("10:00", "⬛"), ("11:00", "⬜")] []
    (by decide) (by decide) (by decide)

/-- An input line none of whose comma-separated tokens is a digit-only string
parses to the empty selection. -/
theorem parseIndices_eq_nil :
    ∀ (inp : String),
      (∀ tk ∈ pySplitComma (pyStrip inp), pyIsDigit (pyStrip tk) = false) →
      parseIndices inp = [] := by
  intro inp h
  unfold parseIndices
  rw [List.filterMap_eq_nil_iff]
  intro a ha
  rw [List.mem_map] at ha
  obtain ⟨tk, htk, rfl⟩ := ha
  rw [h tk htk]
  rfl

/-- Replacing the head of a filter back into the list is the identity. -/
theorem replaceFirst_filter_head :
    ∀ (l : List Row) (p : Row → Bool) (r0 : Row) (rest : List Row),
      l.filter p = r0 :: rest → replaceFirst l p r0 = l := by
  intro l p
  induction l with
  | nil => intro r0 rest h; simp at h
  | cons x xs ih =>
    intro r0 rest h
    rw [List.filter_cons] at h
    by_cases hx : p x = true
    · rw [if_pos hx] at h
      obtain ⟨rfl, -⟩ := List.cons.inj h
      unfold replaceFirst
      rw [if_pos hx]
    · rw [if_neg hx] at h
      unfold replaceFirst
      rw [if_neg hx, ih r0 rest h]

/-- C10 as amended: when the schedule file has a row for the MHWP and date
with at least one open slot, an input line whose comma-separated tokens
contain no digit-only string (an empty line, `abc,xy`, …) is accepted on that
very attempt as a selection of zero slots: no re-prompt occurs, the booking
is reported successful, no appointment record is appended, and the schedule
file is rewritten with exactly the rows of the selected MHWP, their contents
unchanged (rows of other MHWPs are dropped by the rewrite, so the file as a
whole is unchanged only when it held no other MHWP's rows). -/
theorem empty_selection_books_nothing :
    ∀ (p m date inp : String) (rows appts : List Row) (r0 : Row) (rest : List Row),
      (rows.filter fun r => getS r "mhwp_username" == m).filter
          (fun r => getS r "Date" == date) = r0 :: rest →
      extract_available_slots (r0 :: rest) ≠ [] →
      (∀ tk ∈ pySplitComma (pyStrip inp), pyIsDigit (pyStrip tk) = false) →
      patient_select_slots p m ⟨some rows, some appts⟩ date [inp]
        = (.booked [],
           ⟨some (rows.filter fun r => getS r "mhwp_username" == m), some appts⟩) := by
  intro p m date inp rows appts r0 rest hdt hav hnod
  have hparse : parseIndices inp = [] := parseIndices_eq_nil inp hnod
  have hvalid : validSelection (extract_available_slots (r0 :: rest)) [] :=
    ⟨fun i hi => absurd hi (List.not_mem_nil i), by simp⟩
  have hloop : selectLoop (extract_available_slots (r0 :: rest)) [inp] = some [] := by
    unfold selectLoop
    rw [hparse, if_pos hvalid]
  have hallne : (rows.filter fun r => getS r "mhwp_username" == m).isEmpty = false := by
    cases hall : rows.filter fun r => getS r "mhwp_username" == m with
    | nil => rw [hall] at hdt; simp at hdt
    | cons a as => rfl
  have havne : (extract_available_slots (r0 :: rest)).isEmpty = false := by
    cases hae : extract_available_slots (r0 :: rest) with
    | nil => exact absurd hae hav
    | cons a as => rfl
  unfold patient_select_slots
  dsimp only
  rw [hallne]
  simp only [Bool.false_eq_true, if_false]
  rw [hdt]
  dsimp only
  rw [havne]
  simp only [Bool.false_eq_true, if_false]
  rw [hloop]
  dsimp only
  rw [if_pos (by intro i hi; cases hi)]
  simp only [List.foldl_nil, List.map_nil, List.append_nil]
  rw [replaceFirst_filter_head _ _ r0 rest hdt]
  rfl

/-- Witness for C10: an empty input line on a single-row schedule books
nothing, reports success, and leaves both files' contents unchanged. -/
theorem empty_selection_books_nothing_witness :
    patient_select_slots "alice" "m1"
        ⟨some [mkScheduleRow "m1" "d" "-" [("09:00", "⬜")]], some []⟩ "d" [""]
      = (.booked [],
         ⟨some [mkScheduleRow "m1" "d" "-" [("09:00", "⬜")]], some []⟩) :=
  empty_selection_books_nothing "alice" "m1" "d" ""
    [mkScheduleRow "m1" "d" "-" [("09:00", "⬜")]] []
    (mkScheduleRow "m1" "d" "-" [("09:00", "⬜")]) []
    (by decide) (by decide) (by decide)

end Patient
